import Mathlib

/-!
Verification of the ai_football_prediction training pipeline.

Shallow embedding of the pure computational core of the repository:
feature engineering (src/ml/training/feature_engineering.py), team
statistics aggregation and synthetic data generation
(src/ml/training/database_loader.py), the Poisson goals model
(src/ml/training/baseline_models.py), the evaluation metrics
(src/ml/training/evaluate_model.py) and the seeding control flow of the
historical fetcher (src/ml/training/football_data_org_fetcher.py).

Python floats are modelled as rationals, Python dict.get with optional
fields (Option with getD), and Python lists as Lean lists.
-/

namespace AIFootball

/-! ## Feature engineering (feature_engineering.py) -/

/-- Result tag of a head-to-head match, as produced by
DatabaseLoader.load_head_to_head. -/
inductive H2HResult where
  | HOME_WIN
  | AWAY_WIN
  | DRAW
deriving DecidableEq, Repr

/-- One head-to-head match dict. Every key may be absent, as Python
dict.get returns None or a supplied default. -/
structure H2HMatch where
  home_team_id : Option ℕ
  away_team_id : Option ℕ
  home_goals : Option ℚ
  away_goals : Option ℚ
  result : Option H2HResult
deriving DecidableEq, Repr

/-- A team statistics dict as consumed by FeatureEngineer.extract_features.
Each field may be absent; extract_features supplies the defaults. -/
structure TeamData where
  id : Option ℕ
  last_results : Option (List Char)
  points_per_game : Option ℚ
  goals_scored_per_game : Option ℚ
  league_position : Option ℚ
  goal_difference : Option ℚ
  xg : Option ℚ
  days_since_last_match : Option ℚ
  win_streak : Option ℚ
  unbeaten_streak : Option ℚ
  manager_tenure_days : Option ℚ
deriving DecidableEq, Repr

/-- The injury dict consumed by extract_features. -/
structure InjuryData where
  home_count : Option ℚ
  away_count : Option ℚ
  home_impact : Option ℚ
  away_impact : Option ℚ
deriving DecidableEq, Repr

/-- The weather dict consumed by extract_features. -/
structure WeatherData where
  impact : Option ℚ
  temperature : Option ℚ
deriving DecidableEq, Repr

/-- The odds dict consumed by extract_features. -/
structure OddsData where
  home_prob : Option ℚ
deriving DecidableEq, Repr

/-- Python slice l[-n:], the last n elements of l. -/
def lastN (n : ℕ) (l : List α) : List α :=
  l.drop (l.length - n)

/-- FeatureEngineer.feature_names, the canonical ordered name list. -/
def feature_names : List String :=
  [ "home_form_score",
    "away_form_score",
    "home_points_per_game",
    "away_points_per_game",
    "home_goals_per_game",
    "away_goals_per_game",
    "home_league_position",
    "away_league_position",
    "home_goal_difference",
    "away_goal_difference",
    "home_xg",
    "away_xg",
    "h2h_form_score",
    "home_h2h_wins",
    "h2h_avg_goals",
    "home_advantage",
    "home_rest_days",
    "away_rest_days",
    "home_injury_count",
    "away_injury_count",
    "home_injury_impact",
    "away_injury_impact",
    "home_win_streak",
    "away_win_streak",
    "home_unbeaten_streak",
    "away_unbeaten_streak",
    "home_manager_tenure",
    "away_manager_tenure",
    "weather_impact",
    "temperature",
    "market_home_prob" ]

/-- FeatureEngineer._calc_form_score: convert a W/D/L form string to a
numeric score; empty string yields 0.5. -/
def calc_form_score (form_string : List Char) : ℚ :=
  if form_string = [] then 1/2
  else
    (form_string.foldl
      (fun score c =>
        if c = 'W' then score + 1
        else if c = 'D' then score + 1/2
        else score) 0) / form_string.length

/-- FeatureEngineer._calc_h2h_form_score: form score of the queried home
team over the last 5 meetings; empty history yields 0.5. -/
def calc_h2h_form_score (h2h_matches : List H2HMatch) (home_team_id : Option ℕ) : ℚ :=
  if h2h_matches = [] then 1/2
  else
    let r := (lastN 5 h2h_matches).foldl
      (fun (acc : ℚ × ℕ) m =>
        let is_home := m.home_team_id = home_team_id
        let s : ℚ :=
          if m.result = some H2HResult.HOME_WIN then (if is_home then 1 else 0)
          else if m.result = some H2HResult.DRAW then 1/2
          else 0
        (acc.1 + s, acc.2 + 1)) (0, 0)
    if r.2 > 0 then r.1 / r.2 else 1/2

/-- FeatureEngineer._count_h2h_wins: wins of the queried home team over
the last 5 meetings, divided by the constant 5; empty history yields 0.5. -/
def count_h2h_wins (h2h_matches : List H2HMatch) (home_team_id : Option ℕ) : ℚ :=
  if h2h_matches = [] then 1/2
  else
    ((lastN 5 h2h_matches).foldl
      (fun (wins : ℚ) m =>
        if m.result = some H2HResult.HOME_WIN ∧ m.home_team_id = home_team_id
        then wins + 1 else wins) 0) / 5

/-- FeatureEngineer._calc_h2h_avg_goals: total goals over the last 5
meetings, divided by the length of the whole list, divided by 5; empty
history yields 0.5. -/
def calc_h2h_avg_goals (h2h_matches : List H2HMatch) : ℚ :=
  if h2h_matches = [] then 1/2
  else
    let total_goals := (lastN 5 h2h_matches).foldl
      (fun acc m => acc + (m.home_goals.getD 0 + m.away_goals.getD 0)) 0
    total_goals / h2h_matches.length / 5

/-- The FORM FEATURES block of extract_features (6 entries). -/
def form_features (home_team_data away_team_data : TeamData) : List ℚ :=
  [ calc_form_score (home_team_data.last_results.getD []),
    calc_form_score (away_team_data.last_results.getD []),
    home_team_data.points_per_game.getD 0,
    away_team_data.points_per_game.getD 0,
    home_team_data.goals_scored_per_game.getD 0,
    away_team_data.goals_scored_per_game.getD 0 ]

/-- The STRENGTH FEATURES block of extract_features (6 entries, despite
the source comment announcing 5). -/
def strength_features (home_team_data away_team_data : TeamData) : List ℚ :=
  [ home_team_data.league_position.getD 10,
    away_team_data.league_position.getD 10,
    home_team_data.goal_difference.getD 0 / 50,
    away_team_data.goal_difference.getD 0 / 50,
    home_team_data.xg.getD (3/2),
    away_team_data.xg.getD (6/5) ]

/-- The H2H FEATURES block of extract_features (3 entries). -/
def h2h_features (home_team_data : TeamData) (h2h_data : List H2HMatch) : List ℚ :=
  [ calc_h2h_form_score h2h_data home_team_data.id,
    count_h2h_wins h2h_data home_team_data.id,
    calc_h2h_avg_goals h2h_data ]

/-- The CONTEXT FEATURES block of extract_features (3 entries); the first
entry is the constant home advantage factor 1.0. -/
def context_features (home_team_data away_team_data : TeamData) : List ℚ :=
  [ 1,
    min (home_team_data.days_since_last_match.getD 7 / 14) 1,
    min (away_team_data.days_since_last_match.getD 7 / 14) 1 ]

/-- The INJURY FEATURES block of extract_features (4 entries). -/
def injury_features (injury_data : InjuryData) : List ℚ :=
  [ min (injury_data.home_count.getD 0 / 5) 1,
    min (injury_data.away_count.getD 0 / 5) 1,
    1 - injury_data.home_impact.getD 0,
    1 - injury_data.away_impact.getD 0 ]

/-- The MOMENTUM FEATURES block of extract_features (4 entries). -/
def momentum_features (home_team_data away_team_data : TeamData) : List ℚ :=
  [ min (home_team_data.win_streak.getD 0 / 5) 1,
    min (away_team_data.win_streak.getD 0 / 5) 1,
    min (home_team_data.unbeaten_streak.getD 0 / 10) 1,
    min (away_team_data.unbeaten_streak.getD 0 / 10) 1 ]

/-- The MANAGERIAL FEATURES block of extract_features (2 entries). -/
def managerial_features (home_team_data away_team_data : TeamData) : List ℚ :=
  [ min (home_team_data.manager_tenure_days.getD 365 / 1000) 1,
    min (away_team_data.manager_tenure_days.getD 365 / 1000) 1 ]

/-- The ENVIRONMENTAL FEATURES block of extract_features (2 entries). -/
def environmental_features (weather_data : WeatherData) : List ℚ :=
  [ weather_data.impact.getD 0,
    (weather_data.temperature.getD 15 + 30) / 60 ]

/-- The MARKET FEATURE block of extract_features (1 entry). -/
def market_features (odds_data : OddsData) : List ℚ :=
  [ odds_data.home_prob.getD (9/20) ]

/-- FeatureEngineer.extract_features: the ordered feature vector built for
a single match, the concatenation of the nine blocks in source order. -/
def extract_features (home_team_data away_team_data : TeamData)
    (h2h_data : List H2HMatch) (injury_data : InjuryData)
    (weather_data : WeatherData) (odds_data : OddsData) : List ℚ :=
  form_features home_team_data away_team_data ++
  strength_features home_team_data away_team_data ++
  h2h_features home_team_data h2h_data ++
  context_features home_team_data away_team_data ++
  injury_features injury_data ++
  momentum_features home_team_data away_team_data ++
  managerial_features home_team_data away_team_data ++
  environmental_features weather_data ++
  market_features odds_data

/-! ## Team statistics (database_loader.py) -/

/-- Venue of a match from the queried team viewpoint, the CASE column of
the load_team_stats query. -/
inductive Venue where
  | HOME
  | AWAY
deriving DecidableEq, Repr

/-- One row of the match window consumed by _calculate_team_stats. -/
structure StatMatch where
  venue : Venue
  homeGoals : ℕ
  awayGoals : ℕ
  league_position : Option ℕ
deriving DecidableEq, Repr

/-- Goals scored by the team in a match, resolved through the venue. -/
def team_goals (m : StatMatch) : ℕ :=
  if m.venue = Venue.HOME then m.homeGoals else m.awayGoals

/-- Goals conceded by the team in a match, resolved through the venue. -/
def opp_goals (m : StatMatch) : ℕ :=
  if m.venue = Venue.HOME then m.awayGoals else m.homeGoals

/-- The mutable accumulator of the _calculate_team_stats loop: the stats
dict counters together with the two local streak variables. -/
structure StatsAcc where
  wins : ℕ
  draws : ℕ
  losses : ℕ
  goals_scored : ℕ
  goals_conceded : ℕ
  points : ℕ
  form : List Char
  current_streak : ℕ
  unbeaten : ℕ
deriving DecidableEq, Repr

/-- Initial accumulator of the _calculate_team_stats loop. -/
def initAcc : StatsAcc := ⟨0, 0, 0, 0, 0, 0, [], 0, 0⟩

/-- One iteration of the _calculate_team_stats loop body. -/
def statsStep (s : StatsAcc) (m : StatMatch) : StatsAcc :=
  let tg := team_goals m
  let og := opp_goals m
  let s1 := { s with goals_scored := s.goals_scored + tg,
                     goals_conceded := s.goals_conceded + og }
  if tg > og then
    { s1 with wins := s1.wins + 1, points := s1.points + 3,
              form := s1.form ++ ['W'],
              current_streak := s1.current_streak + 1,
              unbeaten := s1.unbeaten + 1 }
  else if tg = og then
    { s1 with draws := s1.draws + 1, points := s1.points + 1,
              form := s1.form ++ ['D'],
              current_streak := 0,
              unbeaten := s1.unbeaten + 1 }
  else
    { s1 with losses := s1.losses + 1,
              form := s1.form ++ ['L'],
              current_streak := 0,
              unbeaten := 0 }

/-- The dict returned by DatabaseLoader._calculate_team_stats. -/
structure TeamStats where
  matches_played : ℕ
  wins : ℕ
  draws : ℕ
  losses : ℕ
  goals_scored : ℕ
  goals_conceded : ℕ
  points : ℕ
  form : List Char
  win_streak : ℕ
  unbeaten_streak : ℕ
  points_per_game : ℚ
  goals_per_game : ℚ
  goals_conceded_per_game : ℚ
  league_position : ℕ
deriving DecidableEq, Repr

/-- DatabaseLoader._calculate_team_stats over a most-recent-first match
window. The league position falls back to 10 when the window is empty or
the most recent row carries no truthy standings position. -/
def calculate_team_stats (ms : List StatMatch) : TeamStats :=
  let a := ms.foldl statsStep initAcc
  let mp := ms.length
  { matches_played := mp
    wins := a.wins
    draws := a.draws
    losses := a.losses
    goals_scored := a.goals_scored
    goals_conceded := a.goals_conceded
    points := a.points
    form := a.form.take 5
    win_streak := a.current_streak
    unbeaten_streak := a.unbeaten
    points_per_game := if mp > 0 then (a.points : ℚ) / mp else 0
    goals_per_game := if mp > 0 then (a.goals_scored : ℚ) / mp else 0
    goals_conceded_per_game := if mp > 0 then (a.goals_conceded : ℚ) / mp else 0
    league_position :=
      match ms.head? with
      | some m =>
          match m.league_position with
          | some p => if p = 0 then 10 else p
          | none => 10
      | none => 10 }

/-- DatabaseLoader._default_team_stats, returned for an empty window. -/
def default_team_stats : TeamStats :=
  { matches_played := 0
    wins := 0
    draws := 0
    losses := 0
    goals_scored := 0
    goals_conceded := 0
    points := 0
    form := ['D', 'D', 'D', 'D', 'D']
    win_streak := 0
    unbeaten_streak := 0
    points_per_game := 1
    goals_per_game := 1
    goals_conceded_per_game := 1
    league_position := 10 }

/-- A match the team won, the first branch of the loop classification. -/
def matchIsWin (m : StatMatch) : Bool := opp_goals m < team_goals m

/-- A match the team did not lose (win or draw). -/
def matchIsNonLoss (m : StatMatch) : Bool := opp_goals m ≤ team_goals m

/-- The streak counter dynamics shared by current_streak and unbeaten:
increment while p holds, reset to 0 otherwise. -/
def streakFold (p : StatMatch → Bool) : List StatMatch → ℕ → ℕ
  | [], s => s
  | m :: t, s => streakFold p t (if p m then s + 1 else 0)

/-! ## Synthetic data generation (database_loader.py) -/

/-- generate_synthetic_data feature matrix np.random.randn(n_samples, 30),
with the sampled standard normals abstracted as an input stream. -/
def generate_synthetic_X (n_samples : ℕ) (randn : ℕ → ℕ → ℚ) : List (List ℚ) :=
  (List.range n_samples).map (fun i => (List.range 30).map (fun j => randn i j))

/-- generate_synthetic_data label sampling np.random.choice([0, 1, 2], p),
with the categorical draw abstracted as the chosen index. -/
def synthetic_label (choice : Fin 3) : ℕ := [0, 1, 2].get choice

/-! ## Model evaluation (evaluate_model.py) -/

/-- One-hot encoding of the true label: np.zeros(n_classes) with the
true_label entry set to 1. -/
def one_hot (n_classes true_label : ℕ) : List ℚ :=
  (List.range n_classes).map (fun i => if i = true_label then 1 else 0)

/-- np.sum((proba - true_onehot) ** 2), the squared Euclidean distance of
two aligned rows. -/
def row_sq_dist (proba onehot : List ℚ) : ℚ :=
  (List.zipWith (fun a b => (a - b) ^ 2) proba onehot).sum

/-- ModelEvaluator._calc_brier_score: accumulate the squared distance of
every probability row to the one-hot truth, then divide by the number of
true labels. n_classes is y_proba.shape 1. -/
def calc_brier_score (y_true : List ℕ) (y_proba : List (List ℚ)) (n_classes : ℕ) : ℚ :=
  ((y_true.zip y_proba).foldl
    (fun brier s => brier + row_sq_dist s.2 (one_hot n_classes s.1)) 0)
    / y_true.length

/-- The five fixed confidence bins of analyze_prediction_confidence. -/
def confidence_bins : List (ℚ × ℚ) :=
  [(0, 2/5), (2/5, 1/2), (1/2, 3/5), (3/5, 7/10), (7/10, 1)]

/-- The bucket mask (max_proba >= low) & (max_proba < high) of one bin. -/
def in_confidence_bin (b : ℚ × ℚ) (max_proba : ℚ) : Bool :=
  decide (b.1 ≤ max_proba) && decide (max_proba < b.2)

/-- Number of the five bins whose mask holds for a sample with the given
maximum predicted-class probability. -/
def assigned_bin_count (max_proba : ℚ) : ℕ :=
  (confidence_bins.filter (fun b => in_confidence_bin b max_proba)).length

/-! ## Poisson goals model (baseline_models.py) -/

/-- PoissonGoalsModel._poisson_dist before normalization: the Poisson
probability mass lam ^ k * exp(-lam) / k! for k = 0..10, with exp(-lam)
abstracted as the rational parameter elam (the factor cancels under the
final normalization, so any positive value represents it). -/
def poisson_weights (lam elam : ℚ) : List ℚ :=
  (List.range 11).map (fun k => lam ^ k * elam / (Nat.factorial k : ℚ))

/-- PoissonGoalsModel._poisson_dist: the 11-entry goal-count distribution,
renormalized to sum to 1 over the truncated support 0..10. -/
def poisson_dist (lam elam : ℚ) : List ℚ :=
  (poisson_weights lam elam).map (fun p => p / (poisson_weights lam elam).sum)

/-- The double loop of predict_outcome_probs, bucketing the product
probability of each goal-count pair by the given comparison. -/
def outcome_mass (home_goals_dist away_goals_dist : List ℚ) (f : ℕ → ℕ → Bool) : ℚ :=
  ∑ h ∈ Finset.range home_goals_dist.length,
    ∑ a ∈ Finset.range away_goals_dist.length,
      if f h a then home_goals_dist.getD h 0 * away_goals_dist.getD a 0 else 0

/-- PoissonGoalsModel.predict_outcome_probs: the HOME, DRAW, AWAY masses
of the product distribution (h greater than a, equal, less). -/
def predict_outcome_probs (home_goals_dist away_goals_dist : List ℚ) : ℚ × ℚ × ℚ :=
  ( outcome_mass home_goals_dist away_goals_dist (fun h a => a < h),
    outcome_mass home_goals_dist away_goals_dist (fun h a => h = a),
    outcome_mass home_goals_dist away_goals_dist (fun h a => h < a) )

/-! ## Historical seeding control flow (football_data_org_fetcher.py) -/

/-- Outcome of one _upsert_match call: returned b when the upsert comes
back, with b recording whether the cursor gave a row back (what the code
counts as inserted), or raised when the upsert itself raises. -/
inductive UpsertResult where
  | returned (inserted : Bool)
  | raised
deriving DecidableEq, Repr

/-- One match of a fetched (league, season) batch together with the
outcome of its _upsert_match call. -/
structure SeedMatch where
  externalId : ℕ
  upsert : UpsertResult
deriving DecidableEq, Repr

/-- Observable outcome of a seeding run: the two returned totals and the
list of batches whose transaction was committed. -/
structure SeedState where
  processed : ℕ
  inserted : ℕ
  committed : List (List SeedMatch)
deriving DecidableEq, Repr

/-- The inner match loop of one batch. total_processed increments BEFORE
each upsert and total_inserted after a returning upsert, so when an
upsert raises the counts of the matches already handled, plus one
processed for the raising match, are left standing; the Bool records
whether the loop ran to completion without an exception. -/
def run_batch : List SeedMatch → ℕ × ℕ × Bool
  | [] => (0, 0, true)
  | m :: rest =>
      match m.upsert with
      | UpsertResult.raised => (1, 0, false)
      | UpsertResult.returned b =>
          let r := run_batch rest
          (1 + r.1, (if b then 1 else 0) + r.2.1, r.2.2)

/-- FootballDataOrgFetcher.seed_historical_matches over the flattened
(league, season) batch sequence. Each batch input is the outcome of
fetch_matches: error when the fetch (or the league upsert before the
match loop) raises, ok with the fetched matches otherwise, each carrying
its own upsert outcome. The try/except wraps the whole nested loop, so
the first exception rolls the open transaction back and ends the run;
but total_processed and total_inserted are plain Python locals that the
rollback does not undo, so a mid-batch upsert failure still returns the
partial counts accumulated inside the failing batch. Empty fetches are
skipped without a commit. -/
def seed_historical_matches : List (Except Unit (List SeedMatch)) → SeedState
  | [] => ⟨0, 0, []⟩
  | Except.error _ :: _ => ⟨0, 0, []⟩
  | Except.ok ms :: rest =>
      if ms.isEmpty then seed_historical_matches rest
      else
        let b := run_batch ms
        if b.2.2 then
          let r := seed_historical_matches rest
          ⟨b.1 + r.processed, b.2.1 + r.inserted, ms :: r.committed⟩
        else ⟨b.1, b.2.1, []⟩

/-- Modelled from the claim wording, for comparison only: the seeding loop
the claim describes, which rolls the failing batch back (it is never
committed) but then continues with the next (league, season) batch
instead of terminating. -/
def seed_historical_matches_claim : List (Except Unit (List SeedMatch)) → SeedState
  | [] => ⟨0, 0, []⟩
  | Except.error _ :: rest => seed_historical_matches_claim rest
  | Except.ok ms :: rest =>
      if ms.isEmpty then seed_historical_matches_claim rest
      else
        let b := run_batch ms
        let r := seed_historical_matches_claim rest
        if b.2.2 then ⟨b.1 + r.processed, b.2.1 + r.inserted, ms :: r.committed⟩
        else ⟨b.1 + r.processed, b.2.1 + r.inserted, r.committed⟩

/-! ## Helper lemmas -/

/-- The goal-accumulating foldl of calc_h2h_avg_goals is a mapped sum. -/
lemma h2h_goals_foldl (l : List H2HMatch) (a : ℚ) :
    l.foldl (fun acc m => acc + (m.home_goals.getD 0 + m.away_goals.getD 0)) a
      = a + (l.map (fun m => m.home_goals.getD 0 + m.away_goals.getD 0)).sum := by
  induction l generalizing a with
  | nil => simp
  | cons x t ih => simp [ih, add_assoc]

/-- takeWhile runs through a prefix on which p holds everywhere. -/
lemma takeWhile_append_all {p : α → Bool} {l l2 : List α} (h : l.all p) :
    (l ++ l2).takeWhile p = l ++ l2.takeWhile p := by
  induction l with
  | nil => simp
  | cons a t ih =>
      rw [List.all_cons, Bool.and_eq_true] at h
      simp [List.takeWhile_cons, h.1, ih h.2]

/-- takeWhile stops inside a prefix on which p fails somewhere. -/
lemma takeWhile_append_not_all {p : α → Bool} {l l2 : List α} (h : ¬ l.all p) :
    (l ++ l2).takeWhile p = l.takeWhile p := by
  induction l with
  | nil => simp at h
  | cons a t ih =>
      by_cases ha : p a
      · rw [List.all_cons, Bool.and_eq_true] at h
        push_neg at h
        simp [List.takeWhile_cons, ha, ih (by simpa [ha] using h)]
      · simp [List.takeWhile_cons, ha]

/-- The win branch of the loop body is taken exactly on matchIsWin. -/
lemma statsStep_current_streak (s : StatsAcc) (m : StatMatch) :
    (statsStep s m).current_streak =
      if matchIsWin m then s.current_streak + 1 else 0 := by
  by_cases h1 : opp_goals m < team_goals m
  · simp [statsStep, matchIsWin, h1]
  · by_cases h2 : team_goals m = opp_goals m
    · simp [statsStep, matchIsWin, h1, h2]
    · simp [statsStep, matchIsWin, h1, h2]

/-- The unbeaten counter survives exactly the non-loss branches. -/
lemma statsStep_unbeaten (s : StatsAcc) (m : StatMatch) :
    (statsStep s m).unbeaten =
      if matchIsNonLoss m then s.unbeaten + 1 else 0 := by
  by_cases h1 : opp_goals m < team_goals m
  · simp [statsStep, matchIsNonLoss, h1, le_of_lt h1]
  · by_cases h2 : team_goals m = opp_goals m
    · simp [statsStep, matchIsNonLoss, h1, h2, le_of_eq h2]
    · have h3 : team_goals m < opp_goals m :=
        lt_of_le_of_ne (le_of_not_lt h1) h2
      simp [statsStep, matchIsNonLoss, h1, h2, not_le.mpr h3]

/-- The current_streak of the stats fold follows the streak dynamics. -/
lemma foldl_current_streak (l : List StatMatch) (s : StatsAcc) :
    (l.foldl statsStep s).current_streak = streakFold matchIsWin l s.current_streak := by
  induction l generalizing s with
  | nil => rfl
  | cons m t ih =>
      simp only [List.foldl_cons, streakFold, ih, statsStep_current_streak]

/-- The unbeaten counter of the stats fold follows the streak dynamics. -/
lemma foldl_unbeaten (l : List StatMatch) (s : StatsAcc) :
    (l.foldl statsStep s).unbeaten = streakFold matchIsNonLoss l s.unbeaten := by
  induction l generalizing s with
  | nil => rfl
  | cons m t ih =>
      simp only [List.foldl_cons, streakFold, ih, statsStep_unbeaten]

/-- Closed form of the streak dynamics. -/
lemma streakFold_eq (p : StatMatch → Bool) (l : List StatMatch) (s : ℕ) :
    streakFold p l s =
      if l.all p then s + l.length else (l.reverse.takeWhile p).length := by
  induction l generalizing s with
  | nil => simp [streakFold]
  | cons m t ih =>
      simp only [streakFold, List.all_cons, List.reverse_cons]
      rw [ih]
      by_cases hm : p m
      · by_cases ht : t.all p
        · have hmt : (p m && t.all p) = true := by simp [hm, ht]
          rw [if_pos hm, if_pos ht, if_pos hmt]
          simp only [List.length_cons]
          omega
        · have hmt : ¬ (p m && t.all p) = true := by simp [ht]
          have hrev : ¬ t.reverse.all p = true := by
            rw [List.all_reverse]
            exact ht
          rw [if_pos hm, if_neg ht, if_neg hmt, takeWhile_append_not_all hrev]
      · have hmt : ¬ (p m && t.all p) = true := by simp [hm]
        rw [if_neg hm, if_neg hmt]
        by_cases ht : t.all p
        · have hrev : t.reverse.all p := by
            rw [List.all_reverse]
            exact ht
          rw [if_pos ht, takeWhile_append_all hrev]
          simp [List.takeWhile_cons, hm]
        · have hrev : ¬ t.reverse.all p = true := by
            rw [List.all_reverse]
            exact ht
          rw [if_neg ht, takeWhile_append_not_all hrev]

/-- Started from zero, the streak dynamics count the trailing run of the
window, that is the run at the oldest end of a most-recent-first list. -/
lemma streakFold_zero (p : StatMatch → Bool) (l : List StatMatch) :
    streakFold p l 0 = (l.reverse.takeWhile p).length := by
  rw [streakFold_eq]
  by_cases h : l.all p
  · have hrev : l.reverse.all p := by
      simp only [List.all_eq_true] at h ⊢
      intro x hx
      exact h x (List.mem_reverse.mp hx)
    have : l.reverse.takeWhile p = l.reverse := by
      simpa using @takeWhile_append_all _ p l.reverse [] hrev
    rw [if_pos h, this]
    simp
  · rw [if_neg h]

/-- Per-iteration bookkeeping of the outcome counters and points. -/
lemma statsStep_counts (s : StatsAcc) (m : StatMatch) :
    (statsStep s m).wins + (statsStep s m).draws + (statsStep s m).losses
        = s.wins + s.draws + s.losses + 1 ∧
    (statsStep s m).points + 3 * s.wins + s.draws
        = s.points + 3 * (statsStep s m).wins + (statsStep s m).draws := by
  by_cases h1 : opp_goals m < team_goals m
  · refine ⟨?_, ?_⟩ <;> simp [statsStep, h1] <;> omega
  · by_cases h2 : team_goals m = opp_goals m
    · refine ⟨?_, ?_⟩ <;> simp [statsStep, h1, h2] <;> omega
    · refine ⟨?_, ?_⟩ <;> simp [statsStep, h1, h2] <;> omega

/-- Fold-level bookkeeping of the outcome counters and points. -/
lemma foldl_counts (l : List StatMatch) (s : StatsAcc) :
    (l.foldl statsStep s).wins + (l.foldl statsStep s).draws
        + (l.foldl statsStep s).losses
        = s.wins + s.draws + s.losses + l.length ∧
    (l.foldl statsStep s).points + 3 * s.wins + s.draws
        = s.points + 3 * (l.foldl statsStep s).wins + (l.foldl statsStep s).draws := by
  induction l generalizing s with
  | nil => simp
  | cons m t ih =>
      obtain ⟨a1, a2⟩ := ih (statsStep s m)
      obtain ⟨b1, b2⟩ := statsStep_counts s m
      simp only [List.foldl_cons, List.length_cons]
      omega

/-! ## Claim theorems on team statistics -/

/-- C5: for every match window, and for the default snapshot returned on
an empty window, the team statistics satisfy wins + draws + losses =
matches_played and points = 3 wins + draws. -/
theorem team_stats_invariants (ms : List StatMatch) :
    ((calculate_team_stats ms).wins + (calculate_team_stats ms).draws
        + (calculate_team_stats ms).losses = (calculate_team_stats ms).matches_played ∧
     (calculate_team_stats ms).points
        = 3 * (calculate_team_stats ms).wins + (calculate_team_stats ms).draws) ∧
    (default_team_stats.wins + default_team_stats.draws + default_team_stats.losses
        = default_team_stats.matches_played ∧
     default_team_stats.points
        = 3 * default_team_stats.wins + default_team_stats.draws) := by
  refine ⟨?_, by simp [default_team_stats]⟩
  obtain ⟨h1, h2⟩ := foldl_counts ms initAcc
  simp only [initAcc] at h1 h2
  simp only [calculate_team_stats, initAcc] at h1 h2 ⊢
  omega

/-- C1 (amended): for every non-empty most-recent-first match window, the
win_streak and unbeaten_streak fields equal the number of consecutive
wins, respectively non-losses, counted from the OLDEST match of the
window forward in time (the trailing run of the most-recent-first list),
not from the most recent match backward. -/
theorem streaks_count_oldest_run (ms : List StatMatch) (h : ms ≠ []) :
    (calculate_team_stats ms).win_streak
        = (ms.reverse.takeWhile matchIsWin).length ∧
    (calculate_team_stats ms).unbeaten_streak
        = (ms.reverse.takeWhile matchIsNonLoss).length := by
  constructor
  · simp only [calculate_team_stats]
    rw [foldl_current_streak]
    simpa [initAcc] using streakFold_zero matchIsWin ms
  · simp only [calculate_team_stats]
    rw [foldl_unbeaten]
    simpa [initAcc] using streakFold_zero matchIsNonLoss ms

/-- Witness for C1 (amended) at the window win-then-loss. -/
theorem streaks_count_oldest_run_witness :
    ([⟨Venue.HOME, 1, 0, none⟩, ⟨Venue.HOME, 0, 1, none⟩] : List StatMatch) ≠ [] ∧
    ((calculate_team_stats [⟨Venue.HOME, 1, 0, none⟩, ⟨Venue.HOME, 0, 1, none⟩]).win_streak
        = (([⟨Venue.HOME, 1, 0, none⟩, ⟨Venue.HOME, 0, 1, none⟩] : List StatMatch).reverse.takeWhile
            matchIsWin).length ∧
     (calculate_team_stats [⟨Venue.HOME, 1, 0, none⟩, ⟨Venue.HOME, 0, 1, none⟩]).unbeaten_streak
        = (([⟨Venue.HOME, 1, 0, none⟩, ⟨Venue.HOME, 0, 1, none⟩] : List StatMatch).reverse.takeWhile
            matchIsNonLoss).length) :=
  ⟨by simp, streaks_count_oldest_run
      [⟨Venue.HOME, 1, 0, none⟩, ⟨Venue.HOME, 0, 1, none⟩] (by simp)⟩

/-- C1 counterexample: on the most-recent-first window win-then-loss, the
code returns win_streak 0 and unbeaten_streak 0, while counting from the
most recent match backward (takeWhile on the most-recent-first list)
gives 1 and 1. -/
theorem streaks_not_from_most_recent :
    ¬ ((calculate_team_stats [⟨Venue.HOME, 1, 0, none⟩, ⟨Venue.HOME, 0, 1, none⟩]).win_streak
        = (([⟨Venue.HOME, 1, 0, none⟩, ⟨Venue.HOME, 0, 1, none⟩] : List StatMatch).takeWhile
            matchIsWin).length ∧
       (calculate_team_stats [⟨Venue.HOME, 1, 0, none⟩, ⟨Venue.HOME, 0, 1, none⟩]).unbeaten_streak
        = (([⟨Venue.HOME, 1, 0, none⟩, ⟨Venue.HOME, 0, 1, none⟩] : List StatMatch).takeWhile
            matchIsNonLoss).length) := by
  intro h
  have := h.1
  simp [calculate_team_stats, statsStep, initAcc, team_goals, opp_goals,
    List.takeWhile, matchIsWin] at this

/-! ## Claim theorems on synthetic data -/

/-- C4 counterexample: the synthetic feature matrix rows are 30 wide,
while the canonical feature-name list of FeatureEngineer has 31 entries. -/
theorem synthetic_width_mismatch :
    ((generate_synthetic_X 1 (fun _ _ => 0)).headD []).length ≠ feature_names.length := by
  decide

/-- C4 (amended): for every n_samples at least 1, generate_synthetic_data
yields n_samples rows of width 30 and labels drawn from the set 0, 1, 2;
this width is one SHORT of the canonical feature width, since the
feature-name list has 31 entries and extract_features produces vectors of
that canonical width 31. -/
theorem generate_synthetic_data_shape (n : ℕ) (hn : 1 ≤ n) (randn : ℕ → ℕ → ℚ) :
    (generate_synthetic_X n randn).length = n ∧
    (∀ row ∈ generate_synthetic_X n randn, row.length = 30) ∧
    feature_names.length = 31 ∧
    (∀ home away h2h injury weather odds,
      (extract_features home away h2h injury weather odds).length = 31) ∧
    (∀ c : Fin 3, synthetic_label c ∈ ([0, 1, 2] : List ℕ)) := by
  refine ⟨by simp [generate_synthetic_X], ?_, rfl, ?_, ?_⟩
  · intro row hrow
    simp only [generate_synthetic_X, List.mem_map] at hrow
    obtain ⟨i, _, rfl⟩ := hrow
    simp
  · intro home away h2h injury weather odds
    rfl
  · intro c
    fin_cases c <;> decide

/-- Witness for C4 (amended) at n_samples 1 and the zero stream. -/
theorem generate_synthetic_data_shape_witness :
    1 ≤ 1 ∧
    ((generate_synthetic_X 1 (fun _ _ => 0)).length = 1 ∧
     (∀ row ∈ generate_synthetic_X 1 (fun _ _ => 0), row.length = 30) ∧
     feature_names.length = 31 ∧
     (∀ home away h2h injury weather odds,
       (extract_features home away h2h injury weather odds).length = 31) ∧
     (∀ c : Fin 3, synthetic_label c ∈ ([0, 1, 2] : List ℕ))) :=
  ⟨le_refl 1, generate_synthetic_data_shape 1 (le_refl 1) (fun _ _ => 0)⟩

/-! ## Claim theorems on feature engineering -/

/-- C10: for every combination of inputs, the home_advantage feature at
index 15 of the vector returned by extract_features is the constant 1,
independent of every input value. -/
theorem home_advantage_constant (home away : TeamData) (h2h : List H2HMatch)
    (injury : InjuryData) (weather : WeatherData) (odds : OddsData) :
    (extract_features home away h2h injury weather odds).get? 15 = some 1 := rfl

/-- C2 (amended): for an empty head-to-head history, all three H2H
features are 0.5 — the form score, the home-team H2H win count and the
average-goals feature each return the neutral default 1/2, whatever the
queried team identifier is. -/
theorem h2h_empty_defaults (tid : Option ℕ) :
    calc_h2h_form_score [] tid = 1/2 ∧
    count_h2h_wins [] tid = 1/2 ∧
    calc_h2h_avg_goals [] = 1/2 :=
  ⟨rfl, rfl, rfl⟩

/-- C2 counterexample: on an empty head-to-head history the win-count
feature equals 0.5, not 0 as the claim states. -/
theorem h2h_empty_wins_not_zero :
    count_h2h_wins [] none = 1/2 ∧ count_h2h_wins [] none ≠ 0 := by
  constructor
  · rfl
  · intro h
    simp [count_h2h_wins] at h

/-- C6: for every non-empty head-to-head list, the average-goals feature
equals the sum of total goals over the last 5 entries of the list,
divided by the length of the whole list, divided by the 5-goal
normalization ceiling. -/
theorem h2h_avg_goals_formula (h2h : List H2HMatch) (h : h2h ≠ []) :
    calc_h2h_avg_goals h2h =
      ((lastN 5 h2h).map (fun m => m.home_goals.getD 0 + m.away_goals.getD 0)).sum
        / h2h.length / 5 := by
  rw [calc_h2h_avg_goals, if_neg h, h2h_goals_foldl]
  simp

/-- Witness for C6 at a concrete one-element history with a 2-1 score. -/
theorem h2h_avg_goals_formula_witness :
    ([⟨none, none, some 2, some 1, none⟩] : List H2HMatch) ≠ [] ∧
    calc_h2h_avg_goals [⟨none, none, some 2, some 1, none⟩] =
      ((lastN 5 [(⟨none, none, some 2, some 1, none⟩ : H2HMatch)]).map
        (fun m => m.home_goals.getD 0 + m.away_goals.getD 0)).sum
        / ([(⟨none, none, some 2, some 1, none⟩ : H2HMatch)] : List H2HMatch).length / 5 :=
  ⟨by simp, h2h_avg_goals_formula [⟨none, none, some 2, some 1, none⟩] (by simp)⟩

/-! ## Claim theorems on the seeding control flow -/

/-- Unfolding of the seeding run on a nonempty batch that completes: the
batch is committed and its totals accumulate onto the rest of the run. -/
lemma seed_cons_ok (b : List SeedMatch) (L : List (Except Unit (List SeedMatch)))
    (hbe : b.isEmpty = false) (hb : (run_batch b).2.2 = true) :
    seed_historical_matches (Except.ok b :: L)
      = ⟨(run_batch b).1 + (seed_historical_matches L).processed,
         (run_batch b).2.1 + (seed_historical_matches L).inserted,
         b :: (seed_historical_matches L).committed⟩ := by
  simp [seed_historical_matches, hbe, hb]

/-- C3 counterexample: on the batch sequence error-then-ok, the code
commits and counts nothing because the first exception terminates the
run, while the claimed keep-going loop would commit the second batch; the
runs differ. -/
theorem seeding_stops_at_first_error :
    seed_historical_matches [Except.error (), Except.ok [⟨1, UpsertResult.returned true⟩]]
      ≠ seed_historical_matches_claim
          [Except.error (), Except.ok [⟨1, UpsertResult.returned true⟩]] ∧
    (seed_historical_matches
        [Except.error (), Except.ok [⟨1, UpsertResult.returned true⟩]]).committed = [] ∧
    (seed_historical_matches_claim
        [Except.error (), Except.ok [⟨1, UpsertResult.returned true⟩]]).committed
      = [[⟨1, UpsertResult.returned true⟩]] := by
  refine ⟨by decide, rfl, rfl⟩

/-- C3 (amended): when a batch raises, the open transaction is rolled back
(the failing batch is never committed) and the seeding run terminates:
earlier committed batches persist in the store and in the totals, nothing
after the failure is attempted, and the returned totals additionally keep
the failing batch's own partial processed/inserted counts (zero for a
fetch-time failure), because the Python counters are not undone by the
rollback. The loop does not continue with the next batch. -/
theorem seeding_rollback_terminates (pre : List (List SeedMatch))
    (hpre : ∀ b ∈ pre, (run_batch b).2.2 = true)
    (bms : List SeedMatch) (hfail : (run_batch bms).2.2 = false)
    (rest rest2 : List (Except Unit (List SeedMatch))) :
    seed_historical_matches (pre.map Except.ok ++ Except.error () :: rest)
      = seed_historical_matches (pre.map Except.ok) ∧
    seed_historical_matches (pre.map Except.ok ++ Except.ok bms :: rest2)
      = ⟨(seed_historical_matches (pre.map Except.ok)).processed + (run_batch bms).1,
         (seed_historical_matches (pre.map Except.ok)).inserted + (run_batch bms).2.1,
         (seed_historical_matches (pre.map Except.ok)).committed⟩ := by
  have hne : bms.isEmpty = false := by
    cases bms with
    | nil => simp [run_batch] at hfail
    | cons x t => rfl
  induction pre with
  | nil =>
      refine ⟨rfl, ?_⟩
      simp [seed_historical_matches, hne, hfail]
  | cons b t ih =>
      have hb : (run_batch b).2.2 = true := hpre b (List.mem_cons_self b t)
      obtain ⟨ih1, ih2⟩ := ih (fun x hx => hpre x (List.mem_cons_of_mem b hx))
      by_cases hbe : b.isEmpty = true
      · constructor
        · simpa [seed_historical_matches, hbe] using ih1
        · simpa [seed_historical_matches, hbe] using ih2
      · have hbe2 : b.isEmpty = false := by simpa using hbe
        constructor
        · rw [List.map_cons, List.cons_append, seed_cons_ok b _ hbe2 hb, ih1,
            ← seed_cons_ok b _ hbe2 hb, ← List.map_cons]
        · rw [List.map_cons, List.cons_append, seed_cons_ok b _ hbe2 hb, ih2,
            seed_cons_ok b _ hbe2 hb]
          simp only [SeedState.mk.injEq]
          refine ⟨by omega, by omega, trivial⟩

/-- Witness for C3 (amended): one committed one-match batch, then a batch
whose second upsert raises after the first was processed and inserted. -/
theorem seeding_rollback_terminates_witness :
    (∀ b ∈ ([[⟨1, UpsertResult.returned true⟩]] : List (List SeedMatch)),
        (run_batch b).2.2 = true) ∧
    (run_batch [⟨2, UpsertResult.returned true⟩, ⟨3, UpsertResult.raised⟩]).2.2 = false ∧
    (seed_historical_matches
        (([[⟨1, UpsertResult.returned true⟩]] : List (List SeedMatch)).map Except.ok
          ++ Except.error () :: [])
      = seed_historical_matches
          (([[⟨1, UpsertResult.returned true⟩]] : List (List SeedMatch)).map Except.ok) ∧
     seed_historical_matches
        (([[⟨1, UpsertResult.returned true⟩]] : List (List SeedMatch)).map Except.ok
          ++ Except.ok [⟨2, UpsertResult.returned true⟩, ⟨3, UpsertResult.raised⟩] :: [])
      = ⟨(seed_historical_matches
            (([[⟨1, UpsertResult.returned true⟩]] : List (List SeedMatch)).map Except.ok)).processed
           + (run_batch [⟨2, UpsertResult.returned true⟩, ⟨3, UpsertResult.raised⟩]).1,
         (seed_historical_matches
            (([[⟨1, UpsertResult.returned true⟩]] : List (List SeedMatch)).map Except.ok)).inserted
           + (run_batch [⟨2, UpsertResult.returned true⟩, ⟨3, UpsertResult.raised⟩]).2.1,
         (seed_historical_matches
            (([[⟨1, UpsertResult.returned true⟩]] : List (List SeedMatch)).map Except.ok)).committed⟩) :=
  ⟨by decide, by decide,
   seeding_rollback_terminates [[⟨1, UpsertResult.returned true⟩]] (by decide)
     [⟨2, UpsertResult.returned true⟩, ⟨3, UpsertResult.raised⟩] (by decide) [] []⟩

/-! ## Claim theorems on model evaluation -/

/-- The Brier accumulation loop is a mapped sum. -/
lemma brier_foldl (n : ℕ) (l : List (ℕ × List ℚ)) (a : ℚ) :
    l.foldl (fun brier s => brier + row_sq_dist s.2 (one_hot n s.1)) a
      = a + (l.map (fun s => row_sq_dist s.2 (one_hot n s.1))).sum := by
  induction l generalizing a with
  | nil => simp
  | cons x t ih => simp [ih, add_assoc]

/-- A row has squared distance zero to itself. -/
lemma row_sq_dist_self (l : List ℚ) : row_sq_dist l l = 0 := by
  induction l with
  | nil => rfl
  | cons x t ih =>
      simp only [row_sq_dist, List.zipWith_cons_cons, List.sum_cons] at ih ⊢
      simp [ih]

/-- The uniform 3-class row has squared distance 2/3 to every one-hot. -/
lemma row_sq_dist_uniform (t : ℕ) (ht : t < 3) :
    row_sq_dist [1/3, 1/3, 1/3] (one_hot 3 t) = 2/3 := by
  interval_cases t <;> norm_num [row_sq_dist, one_hot, List.range_succ]

/-- Sum of a map that is constant on its list. -/
lemma sum_map_const_of {α : Type _} (l : List α) (f : α → ℚ) (c : ℚ)
    (h : ∀ x ∈ l, f x = c) : (l.map f).sum = l.length * c := by
  induction l with
  | nil => simp
  | cons x t ih =>
      simp only [List.map_cons, List.sum_cons, List.length_cons]
      rw [h x (List.mem_cons_self x t), ih (fun y hy => h y (List.mem_cons_of_mem x hy))]
      push_cast
      ring

/-- C8: the multi-class Brier score is the mean over samples of the
squared Euclidean distance between the probability row and the one-hot
true label; hence 0 when every row is the one-hot of its label, and 2/3
when every row is the uniform 3-class distribution. -/
theorem brier_score_props (y_true : List ℕ) (y_proba : List (List ℚ))
    (hlen : y_true.length = y_proba.length) (hne : y_true ≠ []) :
    calc_brier_score y_true y_proba 3
        = ((y_true.zip y_proba).map (fun s => row_sq_dist s.2 (one_hot 3 s.1))).sum
          / y_true.length ∧
    ((∀ s ∈ y_true.zip y_proba, s.2 = one_hot 3 s.1) →
      calc_brier_score y_true y_proba 3 = 0) ∧
    ((∀ s ∈ y_true.zip y_proba, s.1 < 3 ∧ s.2 = [1/3, 1/3, 1/3]) →
      calc_brier_score y_true y_proba 3 = 2/3) := by
  have hform : calc_brier_score y_true y_proba 3
      = ((y_true.zip y_proba).map (fun s => row_sq_dist s.2 (one_hot 3 s.1))).sum
        / y_true.length := by
    rw [calc_brier_score, brier_foldl]
    simp
  refine ⟨hform, ?_, ?_⟩
  · intro hall
    rw [hform]
    have hz : ((y_true.zip y_proba).map
        (fun s => row_sq_dist s.2 (one_hot 3 s.1))).sum = 0 := by
      apply List.sum_eq_zero
      intro x hx
      simp only [List.mem_map] at hx
      obtain ⟨s, hs, rfl⟩ := hx
      rw [hall s hs]
      exact row_sq_dist_self _
    rw [hz, zero_div]
  · intro hall
    have hlz : (y_true.zip y_proba).length = y_true.length := by
      rw [List.length_zip, hlen, min_self]
    have hsum : ((y_true.zip y_proba).map
        (fun s => row_sq_dist s.2 (one_hot 3 s.1))).sum
        = ((y_true.zip y_proba).length : ℚ) * (2/3) := by
      apply sum_map_const_of
      intro s hs
      obtain ⟨h1, h2⟩ := hall s hs
      rw [h2]
      exact row_sq_dist_uniform s.1 h1
    have hnz : (y_true.length : ℚ) ≠ 0 :=
      Nat.cast_ne_zero.mpr (fun h => hne (List.length_eq_zero.mp h))
    rw [hform, hsum, hlz]
    field_simp
    ring

/-- Witness for C8 at two perfectly classified samples. -/
theorem brier_score_props_witness :
    ([0, 1] : List ℕ).length = ([[1, 0, 0], [0, 1, 0]] : List (List ℚ)).length ∧
    ([0, 1] : List ℕ) ≠ [] ∧
    (calc_brier_score [0, 1] [[1, 0, 0], [0, 1, 0]] 3
        = ((([0, 1] : List ℕ).zip ([[1, 0, 0], [0, 1, 0]] : List (List ℚ))).map
            (fun s => row_sq_dist s.2 (one_hot 3 s.1))).sum
          / ([0, 1] : List ℕ).length ∧
     ((∀ s ∈ ([0, 1] : List ℕ).zip ([[1, 0, 0], [0, 1, 0]] : List (List ℚ)),
         s.2 = one_hot 3 s.1) →
       calc_brier_score [0, 1] [[1, 0, 0], [0, 1, 0]] 3 = 0) ∧
     ((∀ s ∈ ([0, 1] : List ℕ).zip ([[1, 0, 0], [0, 1, 0]] : List (List ℚ)),
         s.1 < 3 ∧ s.2 = [1/3, 1/3, 1/3]) →
       calc_brier_score [0, 1] [[1, 0, 0], [0, 1, 0]] 3 = 2/3)) :=
  ⟨rfl, by simp, brier_score_props [0, 1] [[1, 0, 0], [0, 1, 0]] rfl (by simp)⟩

/-- The bin count as a sum of the five mask indicators. -/
lemma assigned_bin_count_expand (c : ℚ) :
    assigned_bin_count c
      = (if 0 ≤ c ∧ c < 2/5 then 1 else 0)
        + (if 2/5 ≤ c ∧ c < 1/2 then 1 else 0)
        + (if 1/2 ≤ c ∧ c < 3/5 then 1 else 0)
        + (if 3/5 ≤ c ∧ c < 7/10 then 1 else 0)
        + (if 7/10 ≤ c ∧ c < 1 then 1 else 0) := by
  simp only [assigned_bin_count, confidence_bins, in_confidence_bin,
    List.filter_cons, List.filter_nil, Bool.and_eq_true, decide_eq_true_eq]
  split_ifs <;> simp

/-- C9 counterexample: a sample with maximum predicted probability exactly
1.0 lies in [0, 1] yet is counted in none of the five buckets, because
every mask is a half-open interval with strict upper bound. -/
theorem confidence_one_unassigned :
    (0 : ℚ) ≤ 1 ∧ (1 : ℚ) ≤ 1 ∧ assigned_bin_count 1 = 0 :=
  ⟨by norm_num, le_refl 1, by rw [assigned_bin_count_expand]; norm_num⟩

/-- C9 (amended): every sample whose maximum predicted-class probability
lies in [0, 1) falls into exactly one of the five buckets, while a sample
with maximum predicted probability exactly 1.0 falls into no bucket. -/
theorem confidence_binning (c : ℚ) (h0 : 0 ≤ c) (h1 : c < 1) :
    assigned_bin_count c = 1 ∧ assigned_bin_count 1 = 0 := by
  refine ⟨?_, by rw [assigned_bin_count_expand]; norm_num⟩
  rw [assigned_bin_count_expand]
  rcases lt_or_le c (2/5) with hA | hA
  · rw [if_pos ⟨h0, hA⟩, if_neg (by rintro ⟨h, _⟩; linarith),
      if_neg (by rintro ⟨h, _⟩; linarith), if_neg (by rintro ⟨h, _⟩; linarith),
      if_neg (by rintro ⟨h, _⟩; linarith)]
  · rcases lt_or_le c (1/2) with hB | hB
    · rw [if_neg (by rintro ⟨_, h⟩; linarith), if_pos ⟨hA, hB⟩,
        if_neg (by rintro ⟨h, _⟩; linarith), if_neg (by rintro ⟨h, _⟩; linarith),
        if_neg (by rintro ⟨h, _⟩; linarith)]
    · rcases lt_or_le c (3/5) with hC | hC
      · rw [if_neg (by rintro ⟨_, h⟩; linarith), if_neg (by rintro ⟨_, h⟩; linarith),
          if_pos ⟨hB, hC⟩, if_neg (by rintro ⟨h, _⟩; linarith),
          if_neg (by rintro ⟨h, _⟩; linarith)]
      · rcases lt_or_le c (7/10) with hD | hD
        · rw [if_neg (by rintro ⟨_, h⟩; linarith), if_neg (by rintro ⟨_, h⟩; linarith),
            if_neg (by rintro ⟨_, h⟩; linarith), if_pos ⟨hC, hD⟩,
            if_neg (by rintro ⟨h, _⟩; linarith)]
        · rw [if_neg (by rintro ⟨_, h⟩; linarith), if_neg (by rintro ⟨_, h⟩; linarith),
            if_neg (by rintro ⟨_, h⟩; linarith), if_neg (by rintro ⟨_, h⟩; linarith),
            if_pos ⟨hD, h1⟩]

/-- Witness for C9 (amended) at maximum probability one half. -/
theorem confidence_binning_witness :
    (0 : ℚ) ≤ 1/2 ∧ (1/2 : ℚ) < 1 ∧
    (assigned_bin_count (1/2) = 1 ∧ assigned_bin_count 1 = 0) :=
  ⟨by norm_num, by norm_num, confidence_binning (1/2) (by norm_num) (by norm_num)⟩

/-! ## Claim theorems on the Poisson goals model -/

/-- Dividing every entry by a constant divides the sum. -/
lemma sum_map_div (l : List ℚ) (s : ℚ) :
    (l.map (fun p => p / s)).sum = l.sum / s := by
  induction l with
  | nil => simp
  | cons x t ih => simp [ih, add_div]

/-- Every unnormalized Poisson weight is positive for positive lambda. -/
lemma poisson_weights_pos (lam elam : ℚ) (hl : 0 < lam) (he : 0 < elam) :
    ∀ x ∈ poisson_weights lam elam, 0 < x := by
  intro x hx
  simp only [poisson_weights, List.mem_map, List.mem_range] at hx
  obtain ⟨k, _, rfl⟩ := hx
  apply div_pos (mul_pos (pow_pos hl k) he)
  exact_mod_cast Nat.factorial_pos k

/-- The normalization denominator of _poisson_dist is positive. -/
lemma poisson_weights_sum_pos (lam elam : ℚ) (hl : 0 < lam) (he : 0 < elam) :
    0 < (poisson_weights lam elam).sum := by
  apply List.sum_pos _ (poisson_weights_pos lam elam hl he)
  simp [poisson_weights]

/-- Every entry of the normalized distribution is nonnegative. -/
lemma poisson_dist_nonneg (lam elam : ℚ) (hl : 0 < lam) (he : 0 < elam) :
    ∀ x ∈ poisson_dist lam elam, 0 ≤ x := by
  intro x hx
  simp only [poisson_dist, List.mem_map] at hx
  obtain ⟨p, hp, rfl⟩ := hx
  exact le_of_lt (div_pos (poisson_weights_pos lam elam hl he p hp)
    (poisson_weights_sum_pos lam elam hl he))

/-- getD with default 0 of a nonnegative list is nonnegative. -/
lemma getD_nonneg (l : List ℚ) (h : ∀ x ∈ l, 0 ≤ x) (i : ℕ) :
    0 ≤ l.getD i 0 := by
  rcases lt_or_le i l.length with hi | hi
  · rw [List.getD_eq_getElem l 0 hi]
    exact h _ (List.getElem_mem hi)
  · rw [List.getD_eq_default l 0 hi]

/-- Summing getD with default 0 over the index range gives the list sum. -/
lemma sum_range_getD (l : List ℚ) :
    ∑ i ∈ Finset.range l.length, l.getD i 0 = l.sum := by
  induction l with
  | nil => simp
  | cons x t ih =>
      rw [List.length_cons, Finset.sum_range_succ']
      simp only [List.getD_cons_succ, List.getD_cons_zero, List.sum_cons]
      rw [ih, add_comm]

/-- Every outcome bucket of the double loop is nonnegative when both
distributions are. -/
lemma outcome_mass_nonneg (hd ad : List ℚ) (hhd : ∀ x ∈ hd, 0 ≤ x)
    (had : ∀ x ∈ ad, 0 ≤ x) (f : ℕ → ℕ → Bool) :
    0 ≤ outcome_mass hd ad f := by
  apply Finset.sum_nonneg
  intro h _
  apply Finset.sum_nonneg
  intro a _
  by_cases hfa : f h a
  · simpa [hfa] using mul_nonneg (getD_nonneg hd hhd h) (getD_nonneg ad had a)
  · simp [hfa]

/-- The three outcome buckets partition the product mass. -/
lemma outcome_mass_total (hd ad : List ℚ) :
    outcome_mass hd ad (fun h a => a < h) + outcome_mass hd ad (fun h a => h = a)
      + outcome_mass hd ad (fun h a => h < a) = hd.sum * ad.sum := by
  rw [← sum_range_getD hd, ← sum_range_getD ad,
    Finset.sum_mul_sum (Finset.range hd.length) (Finset.range ad.length)
      (fun h => hd.getD h 0) (fun a => ad.getD a 0)]
  unfold outcome_mass
  rw [← Finset.sum_add_distrib, ← Finset.sum_add_distrib]
  apply Finset.sum_congr rfl
  intro h _
  rw [← Finset.sum_add_distrib, ← Finset.sum_add_distrib]
  apply Finset.sum_congr rfl
  intro a _
  simp only [decide_eq_true_eq]
  rcases lt_trichotomy a h with hlt | heq | hgt
  · rw [if_pos hlt, if_neg (by omega : ¬ h = a), if_neg (by omega : ¬ h < a)]
    ring
  · rw [if_neg (by omega : ¬ a < h), if_pos (by omega : h = a),
      if_neg (by omega : ¬ h < a)]
    ring
  · rw [if_neg (by omega : ¬ a < h), if_neg (by omega : ¬ h = a), if_pos hgt]
    ring

/-- C7: for positive lambdas (with exp(-lambda) represented by any
positive rational), the truncated goal-count distribution has 11 entries
summing to 1, and the HOME, DRAW, AWAY probabilities computed from two
such distributions are nonnegative and sum exactly to 1 over the
rationals. -/
theorem poisson_outcome_probs (lam1 elam1 lam2 elam2 : ℚ)
    (h1 : 0 < lam1) (h2 : 0 < elam1) (h3 : 0 < lam2) (h4 : 0 < elam2) :
    (poisson_dist lam1 elam1).length = 11 ∧
    (poisson_dist lam1 elam1).sum = 1 ∧
    (0 ≤ (predict_outcome_probs (poisson_dist lam1 elam1) (poisson_dist lam2 elam2)).1 ∧
     0 ≤ (predict_outcome_probs (poisson_dist lam1 elam1) (poisson_dist lam2 elam2)).2.1 ∧
     0 ≤ (predict_outcome_probs (poisson_dist lam1 elam1) (poisson_dist lam2 elam2)).2.2) ∧
    (predict_outcome_probs (poisson_dist lam1 elam1) (poisson_dist lam2 elam2)).1
      + (predict_outcome_probs (poisson_dist lam1 elam1) (poisson_dist lam2 elam2)).2.1
      + (predict_outcome_probs (poisson_dist lam1 elam1) (poisson_dist lam2 elam2)).2.2
      = 1 := by
  have hsum1 : (poisson_dist lam1 elam1).sum = 1 := by
    rw [poisson_dist, sum_map_div,
      div_self (ne_of_gt (poisson_weights_sum_pos lam1 elam1 h1 h2))]
  have hsum2 : (poisson_dist lam2 elam2).sum = 1 := by
    rw [poisson_dist, sum_map_div,
      div_self (ne_of_gt (poisson_weights_sum_pos lam2 elam2 h3 h4))]
  have hn1 := poisson_dist_nonneg lam1 elam1 h1 h2
  have hn2 := poisson_dist_nonneg lam2 elam2 h3 h4
  simp only [predict_outcome_probs]
  refine ⟨by simp [poisson_dist, poisson_weights], hsum1, ⟨?_, ?_, ?_⟩, ?_⟩
  · exact outcome_mass_nonneg _ _ hn1 hn2 _
  · exact outcome_mass_nonneg _ _ hn1 hn2 _
  · exact outcome_mass_nonneg _ _ hn1 hn2 _
  · rw [outcome_mass_total, hsum1, hsum2, mul_one]

/-- Witness for C7 at unit lambdas and unit exponential factors. -/
theorem poisson_outcome_probs_witness :
    (0 : ℚ) < 1 ∧
    ((poisson_dist 1 1).length = 11 ∧
     (poisson_dist 1 1).sum = 1 ∧
     (0 ≤ (predict_outcome_probs (poisson_dist 1 1) (poisson_dist 1 1)).1 ∧
      0 ≤ (predict_outcome_probs (poisson_dist 1 1) (poisson_dist 1 1)).2.1 ∧
      0 ≤ (predict_outcome_probs (poisson_dist 1 1) (poisson_dist 1 1)).2.2) ∧
     (predict_outcome_probs (poisson_dist 1 1) (poisson_dist 1 1)).1
       + (predict_outcome_probs (poisson_dist 1 1) (poisson_dist 1 1)).2.1
       + (predict_outcome_probs (poisson_dist 1 1) (poisson_dist 1 1)).2.2
       = 1) :=
  ⟨by norm_num,
   poisson_outcome_probs 1 1 1 1 (by norm_num) (by norm_num) (by norm_num) (by norm_num)⟩

end AIFootball
